import Mathlib

/-!
Verification of the randpage utility (main.go) against its specification.

The program collects candidate .pdf paths from its command-line arguments
(walking directories, or reading lines from stdin for the "-" marker),
shuffles them, and for each candidate in turn counts its pages, picks a
random page, and serves the file once over an ephemeral loopback HTTP
server while launching the OS viewer.

Each definition below is a shallow embedding of a specific piece of
main.go; the source line numbers are given in the doc comments.
-/

namespace Randpage

/-- Embeds the suffix test used at main.go:46-47:
`strings.HasSuffix(strings.ToLower(name), ".pdf")`. `strings.ToLower` maps
each rune to lower case (modelled with `Char.toLower`, which covers the
ASCII range) and `strings.HasSuffix` is a suffix check on the rune
sequence. -/
def looksLikePdf (s : String) : Bool :=
  List.isSuffixOf ((".pdf").data) (s.data.map Char.toLower)

/-! ### Stdin collection (main.go:30-38)

The scanner loop appends every line read from standard input to the
candidate slice: `for scanner.Scan() { pdfs = append(pdfs, scanner.Text()) }`.
Standard input is modelled as the list of lines the scanner yields. -/

/-- The scanner loop of main.go:31-34: each iteration appends the current
line to the accumulated slice. -/
def scanLoop (acc : List String) : List String → List String
  | [] => acc
  | line :: rest => scanLoop (acc ++ [line]) rest

/-- Candidates contributed by a `-` argument (main.go:30-38): run the
scanner loop starting from the empty accumulator. -/
def collectStdin (lines : List String) : List String :=
  scanLoop [] lines

/-- Spec-side definition, following the claim's words: the newline-delimited
input lines whose lowercased text ends in `.pdf`; every other line dropped. -/
def stdinSpecEntries (lines : List String) : List String :=
  lines.filter (fun s => looksLikePdf s)

/-! ### Random page selection (main.go:69)

`rnd.Intn(nPages)` returns a uniform value in `[0, nPages)` and panics when
`nPages <= 0`; the driver passes `rnd.Intn(nPages)+1` to `open`. The random
draw is modelled by an arbitrary natural `r` reduced mod `n`. -/

/-- Go `rand.Intn(n)` for a draw `r`: `none` models the panic for `n = 0`,
otherwise the result is a value in `[0, n)`. -/
def intn (n r : Nat) : Option Nat :=
  if n = 0 then none else some (r % n)

/-- The page number handed to `open` at main.go:69: `rnd.Intn(nPages)+1`. -/
def pickPage (nPages r : Nat) : Option Nat :=
  (intn nPages r).map (fun i => i + 1)

/-! ### Driver loop (main.go:60-75)

Each iteration pops the head candidate, counts its pages (skip on error),
picks a page (panic on zero page count), and calls `open` (skip on error,
exit 0 on success). A candidate is summarised by its page-count result, the
random draw used for it, and whether `open` would succeed. -/

/-- Outcome of the driver's handling of one candidate (main.go:60-74). -/
inductive TryResult where
  | panicked
  | skipped
  | opened (page : Nat)
deriving DecidableEq, Repr

/-- One iteration of the driver loop (main.go:64-74): a failed page count
skips the candidate; a zero page count makes `rnd.Intn` panic; otherwise
`open` is called with page `i+1` and a failure skips the candidate. -/
def tryCandidate (count : Except String Nat) (r : Nat) (openOk : Bool) : TryResult :=
  match count with
  | .error _ => .skipped
  | .ok n =>
    match intn n r with
    | none => .panicked
    | some i => if openOk then .opened (i + 1) else .skipped

/-- Result of the whole driver run (main.go:60-78). -/
inductive DriverResult where
  | crashed
  | openedDoc
  | exhausted
deriving DecidableEq, Repr

/-- The driver loop over the (already shuffled) candidate list, each
candidate summarised as (page-count result, random draw, open success). -/
def runDriver : List (Except String Nat × Nat × Bool) → DriverResult
  | [] => .exhausted
  | (c, r, ok) :: rest =>
    match tryCandidate c r ok with
    | .panicked => .crashed
    | .opened _ => .openedDoc
    | .skipped => runDriver rest

/-! ### Shuffle (main.go:55-58)

`rnd.Shuffle(len(pdfs), swap)` is Go's Fisher-Yates: for `i` from `n-1`
down to `1` it draws `j` uniform in `[0, i]` and swaps positions `i` and
`j`. The random draws are modelled by a function `js` giving the raw draw
for each index `i`, reduced mod `i+1` as the generator guarantees. -/

/-- The swap closure of main.go:56-57: `pdfs[i], pdfs[j] = pdfs[j], pdfs[i]`.
`d` is the out-of-range default for `getD`; all uses keep both indices in
range. -/
def listSwap (l : List α) (i j : Nat) (d : α) : List α :=
  (l.set i (l.getD j d)).set j (l.getD i d)

/-- The Fisher-Yates loop of `rand.Shuffle`: the first argument is the
current loop index `i`; each step swaps `i` with `js i % (i+1)` and
decrements. -/
def shuffleAux (js : Nat → Nat) (d : α) : Nat → List α → List α
  | 0, l => l
  | i + 1, l => shuffleAux js d i (listSwap l (i + 1) (js (i + 1) % (i + 2)) d)

/-- `rnd.Shuffle(len(pdfs), ...)` at main.go:56-58: run the loop from
`n - 1` down to `1`. -/
def shuffle (js : Nat → Nat) (d : α) (l : List α) : List α :=
  shuffleAux js d (l.length - 1) l

/-! ### Directory walk (main.go:41-52)

`filepath.WalkDir(arg, fn)` visits the argument tree in order. The walk
function returns the incoming error unchanged, which per `fs.WalkDir`
semantics stops the entire walk of that argument; otherwise it appends the
entry's path when the entry is a regular file whose lowercased name ends in
`.pdf`. The filesystem is modelled as a tree: files carry their regularity
bit (from `d.Type().IsRegular()`), directories carry whether `ReadDir`
succeeds on them. -/

/-- A filesystem entry as observed by `filepath.WalkDir`. The `children`
of a directory are its entries in the order `os.ReadDir` yields them,
which is sorted by filename; `lexOrdered` below states this
well-formedness, and the concrete trees used in counterexamples and
witnesses satisfy it. -/
inductive FSEntry where
  | file (name : String) (regular : Bool)
  | dir (name : String) (readable : Bool) (children : List FSEntry)

/-- The `d.Name()` of an entry. -/
def entryName : FSEntry → String
  | .file n _ => n
  | .dir n _ _ => n

/-- Lexical order on names as Go's byte-wise string comparison (the order
`os.ReadDir` sorts by); code-point order coincides with byte order on the
ASCII names used here. -/
def charListLt : List Char → List Char → Bool
  | [], [] => false
  | [], _ :: _ => true
  | _ :: _, [] => false
  | a :: as, b :: bs =>
    if a.toNat < b.toNat then true
    else if b.toNat < a.toNat then false
    else charListLt as bs

/-- Byte-wise `name < name` as used by `os.ReadDir`'s sort. -/
def nameLt (a b : String) : Bool :=
  charListLt a.data b.data

/-- Whether a sibling list is in strictly increasing filename order, as
`os.ReadDir` returns it. -/
def namesSorted : List FSEntry → Bool
  | [] => true
  | [_] => true
  | c :: d :: ds => nameLt (entryName c) (entryName d) && namesSorted (d :: ds)

mutual
/-- A tree is an actual filesystem observation when every directory's
children appear in the strictly increasing lexical name order that
`os.ReadDir` (and hence `filepath.WalkDir`'s visit order) guarantees. -/
def lexOrdered : FSEntry → Bool
  | .file _ _ => true
  | .dir _ _ children => namesSorted children && lexOrderedList children

/-- `lexOrdered` for each entry of a sibling list. -/
def lexOrderedList : List FSEntry → Bool
  | [] => true
  | c :: cs => lexOrdered c && lexOrderedList cs
end

mutual
/-- `filepath.WalkDir` applied at an entry whose full path is `path`, with
the walk function of main.go:41-52. Result: the paths appended to `pdfs` in
visit order, and whether the walk was aborted by a traversal error (the
walk function returns the error at main.go:42-44, which stops the whole
walk). A visited file contributes its path when it is regular and its
lowercased name ends in `.pdf` (main.go:46-49); a directory whose `ReadDir`
fails triggers the error callback. -/
def walkDir : String → FSEntry → List String × Bool
  | path, .file name regular =>
    (if regular && looksLikePdf name then [path] else [], false)
  | path, .dir _ readable children =>
    if readable then walkChildren path children else ([], true)

/-- Walk the children of a directory in visit order — the children list
carries `os.ReadDir`'s lexically sorted output, so list order is
`filepath.WalkDir`'s visit order (`lexOrdered` states this of a tree). On
the first child whose walk aborts with an error, keep what that child
collected and abort the remaining siblings (the error propagates out of
`fs.WalkDir`'s loop). -/
def walkChildren : String → List FSEntry → List String × Bool
  | _, [] => ([], false)
  | p, c :: cs =>
    let r := walkDir (p ++ "/" ++ entryName c) c
    if r.2 then (r.1, true)
    else (r.1 ++ (walkChildren p cs).1, (walkChildren p cs).2)
end

mutual
/-- Spec-side definition, following the claim's words: the regular files
reachable by recursive traversal from the argument whose lowercased name
ends in `.pdf` (files inside an unreadable directory are not reachable). -/
def reachableRegularPdfs : String → FSEntry → List String
  | path, .file name regular =>
    if regular && looksLikePdf name then [path] else []
  | path, .dir _ readable children =>
    if readable then reachableChildrenPdfs path children else []

/-- Spec-side companion of `reachableRegularPdfs` for a child list. -/
def reachableChildrenPdfs : String → List FSEntry → List String
  | _, [] => []
  | p, c :: cs =>
    reachableRegularPdfs (p ++ "/" ++ entryName c) c ++ reachableChildrenPdfs p cs
end

/-! ### The ephemeral HTTP server (main.go:112-133)

The handler compares the request path against `"/" + filename`; a mismatch
gets `http.NotFound`. A match sets the Content-Type and Content-Length
headers, then writes the buffer in a loop, returning early (without
`wg.Done`) if a write fails; after the full buffer is written it calls
`wg.Done`. The connection is modelled by an oracle giving, per `w.Write`
call, either the number of bytes accepted (`ok n`) or a failure after `n`
bytes (`fail n`); `fuel` bounds the number of loop iterations so the
embedding is total (a writer that keeps accepting 0 bytes would loop). -/

/-- Result of one `w.Write(buf)` call (main.go:124). -/
inductive WriteRes where
  | ok (n : Nat)
  | fail (n : Nat)

/-- Result of the write loop of main.go:123-130: `completed` means the loop
exited with the whole buffer sent (falls through to `wg.Done`); `stopped`
means a write error returned early (main.go:125-128); `spin` means the fuel
ran out. Each carries the bytes sent to the connection. -/
inductive LoopRes where
  | completed (sent : List UInt8)
  | stopped (sent : List UInt8)
  | spin (sent : List UInt8)

/-- The write loop of main.go:123-130: `for len(buf) > 0 { n, err := w.Write(buf);
if err != nil { return }; buf = buf[n:] }`. `k` counts the `Write` calls. -/
def writeLoop (oracle : Nat → List UInt8 → WriteRes) (k : Nat) (fuel : Nat)
    (buf : List UInt8) : LoopRes :=
  if buf.isEmpty then .completed []
  else
    match fuel with
    | 0 => .spin []
    | f + 1 =>
      match oracle k buf with
      | .fail n => .stopped (buf.take n)
      | .ok n =>
        match writeLoop oracle (k + 1) f (buf.drop n) with
        | .completed s => .completed (buf.take n ++ s)
        | .stopped s => .stopped (buf.take n ++ s)
        | .spin s => .spin (buf.take n ++ s)

/-- An HTTP response as produced by the handler: status, the two headers it
sets explicitly, and the body bytes sent. -/
structure HtResponse where
  status : Nat
  contentType : Option String
  contentLength : Option Nat
  body : List UInt8
deriving DecidableEq, Repr

/-- `http.NotFound(w, r)` (main.go:115): a 404 with a plain-text body; it
does not set the handler's two explicit headers. -/
def notFoundResp : HtResponse :=
  { status := 404
    contentType := some ("text/plain; charset=utf-8")
    contentLength := none
    body := ("404 page not found\n").toUTF8.toList }

/-- The request handler of main.go:113-132 for one request with path
`reqPath`: mismatching paths get `http.NotFound`; a match gets status 200
(implicit on first write), `Content-Type: application/pdf`,
`Content-Length: len(buf)`, and the bytes the write loop sent. The second
component records whether `wg.Done` was called (only after a completed
write of the full buffer, main.go:131). -/
def handler (filename : String) (buf : List UInt8)
    (oracle : Nat → List UInt8 → WriteRes) (fuel : Nat)
    (reqPath : String) : HtResponse × Bool :=
  if reqPath ≠ "/" ++ filename then (notFoundResp, false)
  else
    match writeLoop oracle 0 fuel buf with
    | .completed s =>
      ({ status := 200, contentType := some ("application/pdf")
         contentLength := some buf.length, body := s }, true)
    | .stopped s =>
      ({ status := 200, contentType := some ("application/pdf")
         contentLength := some buf.length, body := s }, false)
    | .spin s =>
      ({ status := 200, contentType := some ("application/pdf")
         contentLength := some buf.length, body := s }, false)

/-! ### One attempt as a transition system (main.go:106-143)

`open` creates a WaitGroup with counter 1, starts the server, launches the
viewer, and blocks in `wg.Wait()` until the counter reaches 0, then the
driver calls `os.Exit(0)`. While the process runs, any number of requests
may arrive; each matching request with a successful full-body write serves
the document and calls `wg.Done` — `Done` on a counter already at 0 panics
the process. The events of one attempt are interleaved requests (with
whether their body write succeeded in full) and the main flow exiting once
the counter is 0. -/

/-- An event during one attempt: an HTTP request (path, and whether the
full-body write succeeded), or the main flow passing `wg.Wait()` and
calling `os.Exit(0)` (enabled only when the counter is 0). -/
inductive Event where
  | request (path : String) (writeOk : Bool)
  | mainExit

/-- Observable state of one attempt: the WaitGroup counter (main.go:106-107
starts it at 1), whether `wg.Done` panicked, whether the process exited,
and counters of completed full-body serves and successful `wg.Done` calls. -/
structure AttemptState where
  counter : Nat
  panicked : Bool
  exited : Bool
  serves : Nat
  releases : Nat
deriving DecidableEq, Repr

/-- Initial state of an attempt: `wg.Add(1)` at main.go:107. -/
def initAttempt : AttemptState :=
  { counter := 1, panicked := false, exited := false, serves := 0, releases := 0 }

/-- One event of an attempt. A panicked or exited process does nothing
further. A request to a non-matching path is answered 404 and is inert
(main.go:114-117). A matching request whose write fails returns without
`wg.Done` (main.go:125-128). A matching request whose write completes is a
full serve followed by `wg.Done` (main.go:131): the counter decrements if
positive, otherwise `Done` panics. `mainExit` models `wg.Wait()` returning
(counter 0) followed by `os.Exit(0)` at main.go:74. -/
def stepAttempt (filename : String) (s : AttemptState) (e : Event) : AttemptState :=
  if s.panicked || s.exited then s
  else
    match e with
    | .mainExit => if s.counter = 0 then { s with exited := true } else s
    | .request p wOk =>
      if p ≠ "/" ++ filename then s
      else if !wOk then s
      else if s.counter = 0 then { s with serves := s.serves + 1, panicked := true }
      else { s with serves := s.serves + 1, counter := s.counter - 1,
                    releases := s.releases + 1 }

/-- Run one attempt over a sequence of events. -/
def runAttempt (filename : String) (events : List Event) : AttemptState :=
  events.foldl (stepAttempt filename) initAttempt

/-- Holds when every request event matching the served path has a failing
body write (no successful full-body transfer happens in `events`). -/
def allMatchingWritesFail (filename : String) (events : List Event) : Bool :=
  events.all fun e =>
    match e with
    | .request p wOk => (p != "/" ++ filename) || (!wOk)
    | .mainExit => true

/-! ### Sequencing of attempts by the driver (main.go:60-75, 94-143)

`open` returns at main.go:97 (read error, before listening), main.go:102
(listen error), main.go:139 (viewer launch error, after `go srv.Serve(ln)`),
or main.go:143 (success, after which the driver exits the process); it
never returns if the transfer never completes (`wg.Wait` at main.go:142).
Neither `ln` nor `srv` is ever closed, so every attempt that reached
`go srv.Serve(ln)` leaves its server serving until the process dies. -/

/-- How one `open` attempt resolves. -/
inductive AttemptOutcome where
  | readErr
  | bindErr
  | launchErr
  | hangWait
  | success
deriving DecidableEq, Repr

/-- Whether `open` returns an error for this outcome, making the driver
`continue` to the next candidate (main.go:69-71). -/
def returnsError : AttemptOutcome → Bool
  | .readErr | .bindErr | .launchErr => true
  | .hangWait | .success => false

/-- Whether the attempt reached `go srv.Serve(ln)` (main.go:135), binding a
listener that actively serves its document. -/
def serverBound : AttemptOutcome → Bool
  | .readErr | .bindErr => false
  | .launchErr | .hangWait | .success => true

/-- Whether `open` shuts its server down before resolving: it never does
(no `ln.Close` or `srv.Close`/`srv.Shutdown` anywhere in main.go). -/
def serverClosed : AttemptOutcome → Bool := fun _ => false

/-- The attempts the driver actually starts: it runs candidates in order
and starts the next only after `open` returned an error; after a success
(process exits) or a hang (`wg.Wait` never returns) no further attempt
starts (main.go:60-75). -/
def startedAttempts : List AttemptOutcome → List AttemptOutcome
  | [] => []
  | o :: os => if returnsError o then o :: startedAttempts os else [o]

/-- Number of still-serving servers left behind by a list of resolved
attempts: one per attempt that bound a listener and never closed it. -/
def aliveServers : List AttemptOutcome → Nat
  | [] => 0
  | o :: os => (if serverBound o && !serverClosed o then 1 else 0) + aliveServers os

/-! ## Helper lemmas -/

/-- The scanner loop appends the lines it reads to its accumulator. -/
theorem scanLoop_eq_append : ∀ (lines acc : List String), scanLoop acc lines = acc ++ lines := by
  intro lines
  induction lines with
  | nil => intro acc; simp [scanLoop]
  | cons l rest ih => intro acc; simp [scanLoop, ih]

/-- Replacing the element at an in-range position while consing the old
element in front is a permutation. -/
theorem getD_cons_set_perm : ∀ (t : List α) (m : Nat) (a d : α), m < t.length →
    List.Perm (t.getD m d :: t.set m a) (a :: t) := by
  intro t
  induction t with
  | nil => intro m a d h; simp at h
  | cons b t ih =>
    intro m a d h
    cases m with
    | zero => simpa using List.Perm.swap a b t
    | succ k =>
      have hk : k < t.length := by simpa using h
      exact (List.Perm.swap b (t.getD k d) (t.set k a)).trans
        ((List.Perm.cons b (ih k a d hk)).trans (List.Perm.swap a b t))

/-- The swap closure is a permutation when both indices are in range. -/
theorem listSwap_perm : ∀ (l : List α) (i j : Nat) (d : α), i < l.length → j < l.length →
    List.Perm (listSwap l i j d) l := by
  intro l
  induction l with
  | nil => intro i j d hi _; simp at hi
  | cons a t ih =>
    intro i j d hi hj
    cases i with
    | zero =>
      cases j with
      | zero => simp [listSwap]
      | succ m =>
        have hm : m < t.length := by simpa using hj
        simpa [listSwap] using getD_cons_set_perm t m a d hm
    | succ n =>
      cases j with
      | zero =>
        have hn : n < t.length := by simpa using hi
        simpa [listSwap] using getD_cons_set_perm t n a d hn
      | succ m =>
        have hn : n < t.length := by simpa using hi
        have hm : m < t.length := by simpa using hj
        simpa [listSwap] using List.Perm.cons a (ih n m d hn hm)

/-- The swap closure preserves length. -/
theorem listSwap_length (l : List α) (i j : Nat) (d : α) :
    (listSwap l i j d).length = l.length := by
  simp [listSwap]

/-- Every pass of the Fisher-Yates loop yields a permutation of its input
when the loop index is in range. -/
theorem shuffleAux_perm (js : Nat → Nat) (d : α) :
    ∀ (i : Nat) (l : List α), i < l.length → List.Perm (shuffleAux js d i l) l := by
  intro i
  induction i with
  | zero => intro l _; simp [shuffleAux]
  | succ i ih =>
    intro l h
    have h1 : js (i + 1) % (i + 2) < i + 2 := Nat.mod_lt _ (by omega)
    have hswap := listSwap_perm l (i + 1) (js (i + 1) % (i + 2)) d h (by omega)
    have hlen := listSwap_length l (i + 1) (js (i + 1) % (i + 2)) d
    have hrec := ih (listSwap l (i + 1) (js (i + 1) % (i + 2)) d) (by omega)
    simpa [shuffleAux] using List.Perm.trans hrec hswap

/-- One attempt event conserves the sum of successful releases and the
WaitGroup counter: a release moves one unit from the counter, everything
else (404s, failed writes, panics, exit) leaves both unchanged. -/
theorem stepAttempt_conserve (f : String) (s : AttemptState) (e : Event) :
    (stepAttempt f s e).releases + (stepAttempt f s e).counter
      = s.releases + s.counter := by
  cases e <;> simp only [stepAttempt] <;> (repeat' split) <;> simp_all <;> omega

/-- The conservation of `stepAttempt` extended over any event sequence. -/
theorem foldAttempt_conserve (f : String) :
    ∀ (events : List Event) (s : AttemptState),
    (events.foldl (stepAttempt f) s).releases + (events.foldl (stepAttempt f) s).counter
      = s.releases + s.counter := by
  intro events
  induction events with
  | nil => intro s; simp
  | cons e rest ih =>
    intro s
    simp only [List.foldl_cons]
    rw [ih, stepAttempt_conserve]

/-- When no request event carries a successful full-body write to the
matching path, every event leaves the attempt state untouched. -/
theorem runAttempt_blocked (f : String) :
    ∀ (events : List Event), allMatchingWritesFail f events = true →
    runAttempt f events = initAttempt := by
  intro events
  induction events with
  | nil => intro _; rfl
  | cons e rest ih =>
    intro h
    simp only [allMatchingWritesFail, List.all_cons, Bool.and_eq_true] at h
    have hstep : stepAttempt f initAttempt e = initAttempt := by
      cases e with
      | mainExit => simp [stepAttempt, initAttempt]
      | request p w =>
        have hp := h.1
        simp only [Bool.or_eq_true, bne_iff_ne, Bool.not_eq_true'] at hp
        cases hp with
        | inl hne => simp [stepAttempt, initAttempt, hne]
        | inr hw => by_cases hne : p = "/" ++ f <;>
            simp [stepAttempt, initAttempt, hne, hw]
    have := ih (by simpa [allMatchingWritesFail] using h.2)
    simpa [runAttempt, List.foldl_cons, hstep] using this

/-- A write loop that reports completion has sent exactly the whole
buffer. -/
theorem writeLoop_completed_eq (oracle : Nat → List UInt8 → WriteRes) :
    ∀ (fuel k : Nat) (buf s : List UInt8),
    writeLoop oracle k fuel buf = LoopRes.completed s → s = buf := by
  intro fuel
  induction fuel with
  | zero =>
    intro k buf s h
    by_cases hb : buf.isEmpty
    · have hbuf : buf = [] := by simpa using hb
      subst hbuf
      simp [writeLoop] at h
      exact h
    · simp [writeLoop, hb] at h
  | succ f ih =>
    intro k buf s h
    by_cases hb : buf.isEmpty
    · have hbuf : buf = [] := by simpa using hb
      subst hbuf
      simp [writeLoop] at h
      exact h
    · cases ho : oracle k buf with
      | fail n => simp [writeLoop, hb, ho] at h
      | ok n =>
        cases hrec : writeLoop oracle (k + 1) f (buf.drop n) with
        | completed s2 =>
          simp [writeLoop, hb, ho, hrec] at h
          rw [← h, ih (k + 1) (buf.drop n) s2 hrec, List.take_append_drop]
        | stopped s2 => simp [writeLoop, hb, ho, hrec] at h
        | spin s2 => simp [writeLoop, hb, ho, hrec] at h

/-- Under the `io.Writer` contract — an error-free `Write` writes the whole
slice — one loop iteration completes the transfer. -/
theorem writeLoop_full_success (oracle : Nat → List UInt8 → WriteRes)
    (hor : ∀ k b, oracle k b = WriteRes.ok b.length) :
    ∀ (fuel k : Nat) (buf : List UInt8), 1 ≤ fuel →
    writeLoop oracle k fuel buf = LoopRes.completed buf := by
  intro fuel k buf hf
  obtain ⟨f, rfl⟩ : ∃ f, fuel = f + 1 := ⟨fuel - 1, by omega⟩
  by_cases hb : buf.isEmpty
  · have hbuf : buf = [] := by simpa using hb
    subst hbuf
    rw [writeLoop.eq_def]
    simp
  · have hin : writeLoop oracle (k + 1) f [] = LoopRes.completed [] := by
      rw [writeLoop.eq_def]
      simp
    have hdrop : buf.drop buf.length = [] := List.drop_length buf
    rw [writeLoop.eq_def]
    simp [hb, hor k buf, hdrop, hin]

mutual
/-- What the walk collects at an entry is an initial segment of the
reachable regular `.pdf` files there, and the whole of it when no
traversal error occurred. -/
theorem walkDir_front (path : String) (e : FSEntry) :
    ∃ rest, (walkDir path e).1 ++ rest = reachableRegularPdfs path e
      ∧ ((walkDir path e).2 = false → rest = []) :=
  match e with
  | .file name regular => by
    refine ⟨[], ?_, fun _ => rfl⟩
    simp [walkDir, reachableRegularPdfs]
  | .dir name readable children => by
    cases readable with
    | false =>
      refine ⟨[], ?_, fun _ => rfl⟩
      simp [walkDir, reachableRegularPdfs]
    | true =>
      have h := walkChildren_front path children
      simpa [walkDir, reachableRegularPdfs] using h

/-- Companion of `walkDir_front` for the children of a readable
directory. -/
theorem walkChildren_front (p : String) (cs : List FSEntry) :
    ∃ rest, (walkChildren p cs).1 ++ rest = reachableChildrenPdfs p cs
      ∧ ((walkChildren p cs).2 = false → rest = []) :=
  match cs with
  | [] => by
    refine ⟨[], ?_, fun _ => rfl⟩
    simp [walkChildren, reachableChildrenPdfs]
  | c :: cs => by
    obtain ⟨r1, h1, h2⟩ := walkDir_front (p ++ "/" ++ entryName c) c
    obtain ⟨r2, h3, h4⟩ := walkChildren_front p cs
    by_cases herr : (walkDir (p ++ "/" ++ entryName c) c).2
    · refine ⟨r1 ++ reachableChildrenPdfs p cs, ?_, ?_⟩
      · simp [walkChildren, reachableChildrenPdfs, herr, ← h1]
      · intro hcontra
        simp [walkChildren, herr] at hcontra
    · have hr1 : r1 = [] := h2 (by simpa using herr)
      subst hr1
      simp only [List.append_nil] at h1
      refine ⟨r2, ?_, ?_⟩
      · simp [walkChildren, reachableChildrenPdfs, herr, h1, ← h3]
      · intro hok
        apply h4
        simpa [walkChildren, herr] using hok
end

/-- Over a list of attempts that all resolved with an error, the servers
left alive are exactly the launch-failure attempts (the only error path
that reaches `go srv.Serve(ln)` before returning). -/
theorem aliveServers_of_all_errors :
    ∀ (l : List AttemptOutcome), l.all returnsError = true →
    aliveServers l = List.countP (fun o => o == AttemptOutcome.launchErr) l := by
  intro l
  induction l with
  | nil => intro _; rfl
  | cons o os ih =>
    intro h
    simp only [List.all_cons, Bool.and_eq_true] at h
    have hos := ih h.2
    cases o <;> simp_all [aliveServers, serverBound, serverClosed,
      returnsError, List.countP_cons] <;> omega

/-- Every attempt started strictly before another started attempt resolved
by returning an error (the driver only advances past an error). -/
theorem startedAttempts_front_errors :
    ∀ (outs : List AttemptOutcome) (k : Nat),
    k < (startedAttempts outs).length →
    ((startedAttempts outs).take k).all returnsError = true := by
  intro outs
  induction outs with
  | nil => intro k h; simp [startedAttempts] at h
  | cons o os ih =>
    intro k h
    by_cases ho : returnsError o
    · simp only [startedAttempts, ho, if_true] at h ⊢
      cases k with
      | zero => simp
      | succ k =>
        simp only [List.length_cons, Nat.succ_lt_succ_iff] at h
        simp [List.take_succ_cons, ho, ih k h]
    · rw [Bool.not_eq_true] at ho
      simp only [startedAttempts, ho, Bool.false_eq_true, if_false] at h ⊢
      simp only [List.length_cons, List.length_nil] at h
      have hk : k = 0 := by omega
      subst hk
      simp

/-! ## Claims -/

/-- C3: for every candidate whose page-count lookup succeeds with page
count `p ≥ 1`, the page passed to `open` (main.go:69, `rnd.Intn(nPages)+1`)
satisfies `1 ≤ page ≤ p`, and for `p = 1` the page is always `1`. -/
theorem c3_page_in_range (p r : Nat) (h : 1 ≤ p) :
    ∃ page, pickPage p r = some page ∧ 1 ≤ page ∧ page ≤ p ∧ (p = 1 → page = 1) := by
  refine ⟨r % p + 1, ?_, ?_, ?_, ?_⟩
  · simp [pickPage, intn, show p ≠ 0 by omega]
  · omega
  · have := Nat.mod_lt r (show 0 < p by omega)
    omega
  · intro hp
    subst hp
    simp [Nat.mod_one]

/-- Witness for C3 at page count 3 and draw 5. -/
theorem c3_page_in_range_witness :
    1 ≤ 3 ∧ ∃ page, pickPage 3 5 = some page ∧ 1 ≤ page ∧ page ≤ 3 ∧ (3 = 1 → page = 1) :=
  ⟨by decide, c3_page_in_range 3 5 (by decide)⟩

/-- C4 counterexample: a stdin line that does not end in `.pdf` is kept by
the code (main.go:30-38 appends every scanned line), while the claim says
it is dropped. -/
theorem c4_counterexample :
    collectStdin ["doc.pdf", "notes.txt"] ≠ stdinSpecEntries ["doc.pdf", "notes.txt"] := by
  decide

/-- C4 amended: for a `-` argument, the candidate entries collected from
standard input equal exactly all of its newline-delimited lines, with no
`.pdf` filtering; in particular empty standard input contributes zero
entries. -/
theorem c4_stdin_keeps_all_lines (lines : List String) : collectStdin lines = lines := by
  simpa [collectStdin] using scanLoop_eq_append lines []

/-- C7: the shuffle applied to the candidate list (main.go:55-58) is a
permutation: the multiset of elements is unchanged, every element keeps its
multiplicity, and the length is unchanged. -/
theorem c7_shuffle_is_permutation (l : List String) (js : Nat → Nat) :
    Multiset.ofList (shuffle js "" l) = Multiset.ofList l
    ∧ (shuffle js "" l).length = l.length
    ∧ ∀ x, (shuffle js "" l).count x = l.count x := by
  have hp : List.Perm (shuffle js "" l) l := by
    cases l with
    | nil => simp [shuffle, shuffleAux]
    | cons a t => exact shuffleAux_perm js "" ((a :: t).length - 1) (a :: t) (by simp)
  exact ⟨Multiset.coe_eq_coe.mpr hp, hp.length_eq, fun x => hp.count_eq x⟩

/-- C1 counterexample: two matching requests with successful full-body
writes both serve the document — the code never prevents a second
successful serve after the first release, contradicting the claim that no
further successful serve of the body ever occurs for the attempt. -/
theorem c1_counterexample :
    (runAttempt "a.pdf" [Event.request "/a.pdf" true, Event.request "/a.pdf" true]).serves = 2
    ∧ (runAttempt "a.pdf" [Event.request "/a.pdf" true, Event.request "/a.pdf" true]).releases = 1 := by
  decide

/-- C1 amended: the one-shot completion signal is released at most once per
attempt — a second matching full-body write panics the WaitGroup instead of
releasing it again — but the document body itself can be served more than
once if further matching requests are handled before the process exits. -/
theorem c1_release_at_most_once (f : String) (events : List Event) :
    (runAttempt f events).releases ≤ 1 := by
  have h := foldAttempt_conserve f events initAttempt
  simp only [runAttempt]
  simp only [initAttempt] at h ⊢
  omega

/-- C2: with writes obeying the `io.Writer` contract (an error-free write
writes the whole slice), a request to the expected path gets status 200,
`Content-Type: application/pdf`, `Content-Length` equal to the buffer
length, and a body byte-identical to the file buffer (and releases the
signal); a request to any other path gets `http.NotFound`'s 404. -/
theorem c2_server_response (filename : String) (buf : List UInt8)
    (oracle : Nat → List UInt8 → WriteRes) (fuel : Nat) (p : String)
    (hor : ∀ k b, oracle k b = WriteRes.ok b.length) (hfuel : 1 ≤ fuel) :
    handler filename buf oracle fuel ("/" ++ filename)
      = ({ status := 200, contentType := some ("application/pdf"),
           contentLength := some buf.length, body := buf }, true)
    ∧ (p ≠ "/" ++ filename →
        handler filename buf oracle fuel p = (notFoundResp, false)) := by
  constructor
  · have hw := writeLoop_full_success oracle hor fuel 0 buf hfuel
    simp [handler, hw]
  · intro hp
    simp [handler, hp]

/-- Witness for C2: a one-byte document named `a.pdf` served with a
contract-abiding writer, and a miss on path `/x`. -/
theorem c2_server_response_witness :
    handler "a.pdf" [(7 : UInt8)] (fun _ b => WriteRes.ok b.length) 1 ("/" ++ "a.pdf")
      = ({ status := 200, contentType := some ("application/pdf"),
           contentLength := some 1, body := [(7 : UInt8)] }, true)
    ∧ handler "a.pdf" [(7 : UInt8)] (fun _ b => WriteRes.ok b.length) 1 "/x"
      = (notFoundResp, false) :=
  ⟨(c2_server_response "a.pdf" [(7 : UInt8)] (fun _ b => WriteRes.ok b.length) 1 "/x"
      (fun _ _ => rfl) (Nat.le_refl 1)).1,
   (c2_server_response "a.pdf" [(7 : UInt8)] (fun _ b => WriteRes.ok b.length) 1 "/x"
      (fun _ _ => rfl) (Nat.le_refl 1)).2 (by decide)⟩

/-- C8: when the body write to a matching request fails mid-transfer, the
handler stops writing and returns without releasing the signal, and if no
matching request's write ever succeeds the completion signal is never
released and the main flow never passes `wg.Wait()` — the attempt blocks
forever. -/
theorem c8_write_failure_blocks (f : String) (buf : List UInt8)
    (oracle : Nat → List UInt8 → WriteRes) (fuel : Nat) (s : List UInt8)
    (events : List Event)
    (hstop : writeLoop oracle 0 fuel buf = LoopRes.stopped s)
    (hfail : allMatchingWritesFail f events = true) :
    handler f buf oracle fuel ("/" ++ f)
      = ({ status := 200, contentType := some ("application/pdf"),
           contentLength := some buf.length, body := s }, false)
    ∧ (runAttempt f events).releases = 0
    ∧ (runAttempt f events).exited = false := by
  refine ⟨?_, ?_, ?_⟩
  · simp [handler, hstop]
  · rw [runAttempt_blocked f events hfail]
    rfl
  · rw [runAttempt_blocked f events hfail]
    rfl

/-- Witness for C8: a first write that fails immediately, and an event
sequence whose only matching request has a failing write. -/
theorem c8_write_failure_blocks_witness :
    handler "b.pdf" [(3 : UInt8)] (fun _ _ => WriteRes.fail 0) 1 ("/" ++ "b.pdf")
      = ({ status := 200, contentType := some ("application/pdf"),
           contentLength := some 1, body := [] }, false)
    ∧ (runAttempt "b.pdf" [Event.request "/b.pdf" false, Event.mainExit]).releases = 0
    ∧ (runAttempt "b.pdf" [Event.request "/b.pdf" false, Event.mainExit]).exited = false :=
  c8_write_failure_blocks "b.pdf" [(3 : UInt8)] (fun _ _ => WriteRes.fail 0) 1 []
    [Event.request "/b.pdf" false, Event.mainExit] (by rfl) (by decide)

/-- C10: a candidate whose page-count lookup succeeds with count 0 makes
`rnd.Intn(nPages)` at main.go:69 panic, crashing the whole driver run
instead of skipping to the next candidate; the skip-and-continue policy
applies only to lookups that return an error. -/
theorem c10_zero_pages_crashes (r : Nat) (b : Bool)
    (rest : List (Except String Nat × Nat × Bool)) (s : String) :
    runDriver ((Except.ok 0, r, b) :: rest) = DriverResult.crashed
    ∧ runDriver ((Except.error s, r, b) :: rest) = runDriver rest := by
  constructor
  · simp [runDriver, tryCandidate, intn]
  · simp [runDriver, tryCandidate]

/-- C5 counterexample: in `r/{locked (unreadable dir), z.pdf}` the visit
order is lexical — `locked` before `z.pdf` — so the walk hits the error
first and the walk function's `return err` aborts the whole argument's
traversal, collecting nothing, while the reachable regular `.pdf` files
include `r/z.pdf`. The tree satisfies `lexOrdered`, i.e. its children are
in the sorted order `os.ReadDir` actually produces. -/
theorem c5_counterexample :
    lexOrdered (FSEntry.dir "r" true
        [FSEntry.dir "locked" false [], FSEntry.file "z.pdf" true]) = true
    ∧ (walkDir "r" (FSEntry.dir "r" true
        [FSEntry.dir "locked" false [], FSEntry.file "z.pdf" true])).1
      ≠ reachableRegularPdfs "r" (FSEntry.dir "r" true
        [FSEntry.dir "locked" false [], FSEntry.file "z.pdf" true]) := by
  decide

/-- C5 amended: when the traversal of an argument raises no error, the
collected candidates equal exactly the regular files reachable by recursive
traversal whose lowercased name ends in `.pdf`; non-regular entries and
other extensions are excluded. -/
theorem c5_walk_collects_reachable (path : String) (e : FSEntry)
    (h : (walkDir path e).2 = false) :
    (walkDir path e).1 = reachableRegularPdfs path e := by
  obtain ⟨rest, h1, h2⟩ := walkDir_front path e
  rw [h2 h] at h1
  simpa using h1

/-- Witness for C5 on an error-free, lexically ordered tree mixing
case-insensitive matches, non-matching extensions, and a non-regular
`.pdf` entry. -/
theorem c5_walk_collects_reachable_witness :
    lexOrdered (FSEntry.dir "d" true
        [FSEntry.dir "sub" true [FSEntry.file "z.pdf" false],
         FSEntry.file "x.PDF" true, FSEntry.file "y.txt" true]) = true
    ∧ (walkDir "d" (FSEntry.dir "d" true
        [FSEntry.dir "sub" true [FSEntry.file "z.pdf" false],
         FSEntry.file "x.PDF" true, FSEntry.file "y.txt" true])).2 = false
    ∧ (walkDir "d" (FSEntry.dir "d" true
        [FSEntry.dir "sub" true [FSEntry.file "z.pdf" false],
         FSEntry.file "x.PDF" true, FSEntry.file "y.txt" true])).1
      = reachableRegularPdfs "d" (FSEntry.dir "d" true
        [FSEntry.dir "sub" true [FSEntry.file "z.pdf" false],
         FSEntry.file "x.PDF" true, FSEntry.file "y.txt" true]) :=
  ⟨by decide, by decide,
   c5_walk_collects_reachable "d" (FSEntry.dir "d" true
        [FSEntry.dir "sub" true [FSEntry.file "z.pdf" false],
         FSEntry.file "x.PDF" true, FSEntry.file "y.txt" true]) (by decide)⟩

/-- C6 counterexample: a traversal error on the subtree `root/aaa` —
visited first, in lexical order — also kills the contribution of the rest
of the argument's traversal: the regular file `root/b.pdf` outside the
failing subtree is reachable but not collected, contradicting the claim
that only the failing subtree's contribution is aborted. The tree
satisfies `lexOrdered`, so its list order is the real visit order. -/
theorem c6_counterexample :
    lexOrdered (FSEntry.dir "root" true
        [FSEntry.dir "aaa" false [], FSEntry.file "b.pdf" true]) = true
    ∧ (walkDir "root" (FSEntry.dir "root" true
        [FSEntry.dir "aaa" false [], FSEntry.file "b.pdf" true])).1 = []
    ∧ "root/b.pdf" ∈ reachableRegularPdfs "root" (FSEntry.dir "root" true
        [FSEntry.dir "aaa" false [], FSEntry.file "b.pdf" true]) := by
  decide

/-- C6 amended: a traversal error aborts the remainder of that argument's
entire traversal, not just the failing subtree: the collected candidates
always form an initial segment of the reachable regular `.pdf` files
(everything visited before the error), the tail being lost; the error
itself is contained (the walk's return value is discarded at main.go:41, so
the process continues with what was collected). -/
theorem c6_error_keeps_initial_segment (path : String) (e : FSEntry) :
    ∃ rest, (walkDir path e).1 ++ rest = reachableRegularPdfs path e := by
  obtain ⟨rest, h1, _⟩ := walkDir_front path e
  exact ⟨rest, h1⟩

/-- C9 counterexample: a first candidate failing at the viewer launch
(after `go srv.Serve(ln)`) leaves its server alive, and the driver then
starts the second attempt: when attempt 1 starts, one earlier server can
still serve its document, contradicting the claimed invariant. -/
theorem c9_counterexample :
    1 < (startedAttempts [AttemptOutcome.launchErr, AttemptOutcome.success]).length
    ∧ aliveServers ((startedAttempts
        [AttemptOutcome.launchErr, AttemptOutcome.success]).take 1) = 1 := by
  decide

/-- C9 amended: attempts are strictly sequential — every attempt started
before another one resolved by returning an error, and after a success or a
hang no further attempt starts — but servers are not torn down: when an
attempt starts, the number of earlier attempts whose server can still serve
its document equals the number of earlier launch failures, which need not
be zero. -/
theorem c9_sequential_but_servers_leak (outs : List AttemptOutcome) (k : Nat)
    (h : k < (startedAttempts outs).length) :
    ((startedAttempts outs).take k).all returnsError = true
    ∧ aliveServers ((startedAttempts outs).take k)
      = List.countP (fun o => o == AttemptOutcome.launchErr)
          ((startedAttempts outs).take k) := by
  have hall := startedAttempts_front_errors outs k h
  exact ⟨hall, aliveServers_of_all_errors _ hall⟩

/-- Witness for C9 at a run with a read failure, a launch failure, then a
success, observed when the third attempt starts. -/
theorem c9_sequential_but_servers_leak_witness :
    2 < (startedAttempts [AttemptOutcome.readErr, AttemptOutcome.launchErr,
          AttemptOutcome.bindErr, AttemptOutcome.success]).length
    ∧ (((startedAttempts [AttemptOutcome.readErr, AttemptOutcome.launchErr,
          AttemptOutcome.bindErr, AttemptOutcome.success]).take 2).all returnsError = true
       ∧ aliveServers ((startedAttempts [AttemptOutcome.readErr, AttemptOutcome.launchErr,
          AttemptOutcome.bindErr, AttemptOutcome.success]).take 2)
         = List.countP (fun o => o == AttemptOutcome.launchErr)
             ((startedAttempts [AttemptOutcome.readErr, AttemptOutcome.launchErr,
          AttemptOutcome.bindErr, AttemptOutcome.success]).take 2)) :=
  ⟨by decide,
   c9_sequential_but_servers_leak [AttemptOutcome.readErr, AttemptOutcome.launchErr,
      AttemptOutcome.bindErr, AttemptOutcome.success] 2 (by decide)⟩

end Randpage
